import Mathlib

/-!
Verification of the Operando Cell Library dashboard (`app.py`).

The program loads a JSON registry of hardware records, flattens it into a
tabular frame, applies user-selected filters, derives a technique
compatibility matrix, offers a comparison/detail view, and exports the
filtered subset as JSON.  Below, the record-level core (filtering, matrix,
glossary, export) is embedded over `List HardwareRecord`; the loader and
its pandas normalisation step are embedded over a small JSON AST.
-/

/-- One registry record, with the fields the dashboard reads.  Optional
fields (`max_temp_c`, `pressure_control`, `primary_email`) are `Option`s:
`none` models the key being absent from the JSON record (NaN after
`pd.json_normalize`). -/
structure HardwareRecord where
  id : Nat
  name : String
  type : String
  techniques : List String
  instruments : List String
  cad_available : Bool
  max_temp_c : Option Int
  pressure_control : Option Bool
  primary_email : Option String
  reliability : List String
  representativeness : List String
  reproducibility : List String
deriving Repr, DecidableEq

/-- The sidebar filter state: `selected_techniques` / `selected_instruments`
from the two multiselects, and the three capability checkboxes
(`digital_twin_only`, `pressure_control`, `high_temp_only`). -/
structure FilterCriteria where
  selected_techniques : List String
  selected_instruments : List String
  digital_twin_only : Bool
  pressure_control : Bool
  high_temp_only : Bool
deriving Repr, DecidableEq

/-- The criteria with both selections empty and all three flags false
(the sidebar's initial state). -/
def FilterCriteria.empty : FilterCriteria :=
  ⟨[], [], false, false, false⟩

/-- The filter logic of `app.py` lines 80-95, step by step:
start from a copy of the frame; if the technique selection is non-empty
keep rows whose technique list meets it (`any(i in selected_techniques
for i in x)`); likewise for instruments; then the `cad_available == True`
rows when `digital_twin_only`; the `pressure_control == True` rows when
the pressure flag is set (a NaN cell compares unequal to `True`, so an
absent field is dropped, as is `some false`); finally the
`fillna(25) >= 100` rows when `high_temp_only`. -/
def applyFilters (c : FilterCriteria) (df : List HardwareRecord) :
    List HardwareRecord :=
  let f1 := if c.selected_techniques.isEmpty then df else
    df.filter (fun r => r.techniques.any (fun i => c.selected_techniques.contains i))
  let f2 := if c.selected_instruments.isEmpty then f1 else
    f1.filter (fun r => r.instruments.any (fun i => c.selected_instruments.contains i))
  let f3 := if c.digital_twin_only then f2.filter (fun r => r.cad_available) else f2
  let f4 := if c.pressure_control then
    f3.filter (fun r => r.pressure_control.getD false) else f3
  let f5 := if c.high_temp_only then
    f4.filter (fun r => decide (r.max_temp_c.getD 25 ≥ 100)) else f4
  f5

/-- Spec-side restatement (§4.3): a record passes iff it passes each of the
five criteria, composed as a logical AND, each conjunct trivially true when
its criterion is empty/false.  Kept separate from `applyFilters` so the two
can be compared. -/
def matchesCriteriaSpec (c : FilterCriteria) (r : HardwareRecord) : Bool :=
  (c.selected_techniques.isEmpty ||
    r.techniques.any (fun i => c.selected_techniques.contains i)) &&
  (c.selected_instruments.isEmpty ||
    r.instruments.any (fun i => c.selected_instruments.contains i)) &&
  (!c.digital_twin_only || r.cad_available) &&
  (!c.pressure_control || r.pressure_control.getD false) &&
  (!c.high_temp_only || decide (r.max_temp_c.getD 25 ≥ 100))

theorem applyFilters_eq_filter (c : FilterCriteria) (df : List HardwareRecord) :
    applyFilters c df = df.filter (matchesCriteriaSpec c) := by
  unfold applyFilters matchesCriteriaSpec
  cases h1 : c.selected_techniques.isEmpty <;>
    cases h2 : c.selected_instruments.isEmpty <;>
      cases h3 : c.digital_twin_only <;>
        cases h4 : c.pressure_control <;>
          cases h5 : c.high_temp_only <;>
            simp [h1, h2, h3, h4, h5, List.filter_filter, Bool.and_assoc]
  all_goals
    refine List.filter_congr ?_
  all_goals
    intro x _
    simp [Bool.and_comm, Bool.and_left_comm, Bool.and_assoc]

theorem applyFilters_sublist (c : FilterCriteria) (df : List HardwareRecord) :
    (applyFilters c df).Sublist df := by
  rw [applyFilters_eq_filter]; exact List.filter_sublist df

theorem mem_applyFilters (c : FilterCriteria) (df : List HardwareRecord)
    (r : HardwareRecord) :
    r ∈ applyFilters c df ↔ r ∈ df ∧ matchesCriteriaSpec c r = true := by
  rw [applyFilters_eq_filter]; exact List.mem_filter

/-- A sample record for concrete instantiations: everything defaulted except
the fields passed in. -/
def mkRec (i : Nat) (nm : String) (techs : List String) : HardwareRecord :=
  { id := i, name := nm, type := "coin", techniques := techs,
    instruments := [], cad_available := false, max_temp_c := none,
    pressure_control := none, primary_email := none, reliability := [],
    representativeness := [], reproducibility := [] }

/-- **C2.** With both selections empty and all three flags false, every
`if` in the filter logic takes its no-op branch, so the filtered frame is
the full frame. -/
theorem empty_criteria_filters_nothing (df : List HardwareRecord) :
    applyFilters FilterCriteria.empty df = df := by
  simp [applyFilters, FilterCriteria.empty]

/-- **C1.** For a non-empty technique selection `S`, every record kept by
the filter (under any criteria whose technique selection is `S`) has a
technique in `S`; and with the other criteria at their defaults, every
input record dropped by the filter has no technique in `S`. -/
theorem technique_filter_sound (df : List HardwareRecord) (S : List String)
    (hS : S ≠ []) (r : HardwareRecord) :
    (∀ c : FilterCriteria, c.selected_techniques = S →
      r ∈ applyFilters c df → ∃ t ∈ r.techniques, t ∈ S) ∧
    (r ∈ df → r ∉ applyFilters ⟨S, [], false, false, false⟩ df →
      ∀ t ∈ r.techniques, t ∉ S) := by
  have hE : S.isEmpty = false := by
    cases S with
    | nil => exact absurd rfl hS
    | cons a l => rfl
  constructor
  · intro c hc hmem
    rw [mem_applyFilters] at hmem
    obtain ⟨hdf, hmatch⟩ := hmem
    simp [matchesCriteriaSpec, hc, hE, and_assoc] at hmatch
    exact hmatch.1
  · intro hdf hnot t ht hts
    apply hnot
    rw [mem_applyFilters]
    refine ⟨hdf, ?_⟩
    simp [matchesCriteriaSpec, hE]
    exact ⟨t, ht, hts⟩

theorem technique_filter_sound_witness :
    (["XRD"] ≠ ([] : List String)) ∧
    (∃ t ∈ (mkRec 1 "A" ["XRD"]).techniques, t ∈ ["XRD"]) :=
  ⟨by decide,
    (technique_filter_sound [mkRec 1 "A" ["XRD"], mkRec 2 "B" ["SANS"]]
      ["XRD"] (by decide) (mkRec 1 "A" ["XRD"])).1
      ⟨["XRD"], [], false, false, false⟩ rfl (by decide)⟩

/-- **C3.** The five filter steps compose as a logical AND of per-step
predicates (each conjunct trivially true when its criterion is
empty/false), and the output is a sublist of the input: a subset in the
input's original relative order. -/
theorem filters_compose_and_preserve_order (c : FilterCriteria)
    (df : List HardwareRecord) :
    applyFilters c df = df.filter (matchesCriteriaSpec c) ∧
    (applyFilters c df).Sublist df :=
  ⟨applyFilters_eq_filter c df, applyFilters_sublist c df⟩

/-- **C4.** Missing optional fields default deterministically in filter
decisions: a record with no `max_temp_c` behaves as 25 °C, so the
high-temperature step always drops it; a record with no
`pressure_control` behaves as `false`, so the pressure step always drops
it (pandas' `NaN == True` is false); and under the high-temperature-only
criteria a record is kept iff its defaulted `max_temp_c` is ≥ 100. -/
theorem missing_optional_fields_default (df : List HardwareRecord)
    (c : FilterCriteria) (r : HardwareRecord) :
    (c.high_temp_only = true → r.max_temp_c = none →
      r ∉ applyFilters c df) ∧
    (c.pressure_control = true → r.pressure_control = none →
      r ∉ applyFilters c df) ∧
    (r ∈ df →
      (r ∈ applyFilters ⟨[], [], false, false, true⟩ df ↔
        r.max_temp_c.getD 25 ≥ 100)) := by
  refine ⟨?_, ?_, ?_⟩
  · intro hc hr hmem
    rw [mem_applyFilters] at hmem
    simp [matchesCriteriaSpec, hc, hr] at hmem
  · intro hc hr hmem
    rw [mem_applyFilters] at hmem
    simp [matchesCriteriaSpec, hc, hr] at hmem
  · intro hdf
    rw [mem_applyFilters]
    simp [matchesCriteriaSpec, hdf]

theorem missing_optional_fields_default_witness :
    mkRec 1 "A" [] ∉ applyFilters ⟨[], [], false, false, true⟩ [mkRec 1 "A" []] :=
  (missing_optional_fields_default [mkRec 1 "A" []]
    ⟨[], [], false, false, true⟩ (mkRec 1 "A" [])).1 rfl rfl

/-- One tabular row as `pd.json_normalize` flattens a record: the dot-path
columns (`compatibility.techniques`, `digital_twin.cad_available`,
`specifications.operating_limits.max_temp_c`, ...) become plain fields.
This is the loader's tabular projection of a record. -/
structure Row where
  id : Nat
  name : String
  type : String
  techniques : List String
  instruments : List String
  cad_available : Bool
  max_temp_c : Option Int
  pressure_control : Option Bool
  primary_email : Option String
  reliability : List String
  representativeness : List String
  reproducibility : List String
deriving Repr, DecidableEq

def rowOf (r : HardwareRecord) : Row :=
  ⟨r.id, r.name, r.type, r.techniques, r.instruments, r.cad_available,
   r.max_temp_c, r.pressure_control, r.primary_email, r.reliability,
   r.representativeness, r.reproducibility⟩

/-- The loader's tabular projection of a record list (one `Row` per record,
in order). -/
def loadRows (rs : List HardwareRecord) : List Row := rs.map rowOf

/-- `app.py` lines 222-223: `visible_ids` is the id column of the filtered
frame, and the download payload keeps exactly the raw entries whose `id`
occurs among them, in raw order. -/
def exportFiltered (c : FilterCriteria) (raw : List HardwareRecord) :
    List HardwareRecord :=
  let visible_ids := (applyFilters c raw).map (fun r => r.id)
  raw.filter (fun entry => visible_ids.contains entry.id)

/-- **C5.** With unique ids, the export contains exactly the raw records
whose id is in the filtered subset (original shape, all fields verbatim),
it equals the filtered subset itself, and reloading it yields the same
tabular rows as filtering the full dataset: the round-trip holds. -/
theorem export_round_trip (c : FilterCriteria) (raw : List HardwareRecord)
    (hids : (raw.map (fun r => r.id)).Nodup) :
    (∀ e, e ∈ exportFiltered c raw ↔
      e ∈ raw ∧ e.id ∈ (applyFilters c raw).map (fun r => r.id)) ∧
    exportFiltered c raw = applyFilters c raw ∧
    loadRows (exportFiltered c raw) = loadRows (applyFilters c raw) := by
  have hchar : ∀ e ∈ raw,
      (e.id ∈ (applyFilters c raw).map (fun r => r.id)) ↔
        matchesCriteriaSpec c e = true := by
    intro e he
    constructor
    · intro h
      obtain ⟨f, hf, hfe⟩ := List.mem_map.mp h
      have hfraw : f ∈ raw := (applyFilters_sublist c raw).subset hf
      have hfeq : f = e := List.inj_on_of_nodup_map hids hfraw he hfe
      subst hfeq
      exact ((mem_applyFilters c raw f).mp hf).2
    · intro h
      exact List.mem_map.mpr ⟨e, (mem_applyFilters c raw e).mpr ⟨he, h⟩, rfl⟩
  have hmain : exportFiltered c raw = applyFilters c raw := by
    unfold exportFiltered
    conv_rhs => rw [applyFilters_eq_filter]
    refine List.filter_congr ?_
    intro e he
    rw [Bool.eq_iff_iff]
    simpa using hchar e he
  refine ⟨?_, hmain, by rw [hmain]⟩
  intro e
  constructor
  · intro h
    have heraw : e ∈ raw := List.mem_of_mem_filter h
    rw [hmain, mem_applyFilters] at h
    exact ⟨heraw, (hchar e heraw).mpr h.2⟩
  · intro ⟨heraw, h⟩
    rw [hmain, mem_applyFilters]
    exact ⟨heraw, (hchar e heraw).mp h⟩

theorem export_round_trip_witness :
    exportFiltered ⟨["XRD"], [], false, false, false⟩
        [mkRec 1 "A" ["XRD"], mkRec 2 "B" ["SANS"]] =
      applyFilters ⟨["XRD"], [], false, false, false⟩
        [mkRec 1 "A" ["XRD"], mkRec 2 "B" ["SANS"]] :=
  (export_round_trip ⟨["XRD"], [], false, false, false⟩
    [mkRec 1 "A" ["XRD"], mkRec 2 "B" ["SANS"]] (by decide)).2.1

/-- `app.py` line 59: `sorted(list(set(...)))` over the concatenation of
every record's technique list — the distinct technique names of the FULL
dataset, sorted. -/
def allTechniques (df : List HardwareRecord) : List String :=
  ((df.flatMap (fun r => r.techniques)).dedup).mergeSort
    (fun a b => decide (a ≤ b))

/-- One row of the compatibility matrix: `{"Cell": entry['name'],
tech: tech in entry's techniques, ...}`. -/
structure MatrixRow where
  cell : String
  cells : List (String × Bool)
deriving Repr, DecidableEq

def mkMatrixRow (cols : List String) (e : HardwareRecord) : MatrixRow :=
  ⟨e.name, cols.map (fun t => (t, e.techniques.contains t))⟩

/-- `app.py` lines 195-201: one row per `raw_json` entry (in raw order)
whose `name` occurs among the filtered frame's names; the columns are
`all_techniques`, computed from the full dataset. -/
def techniqueMatrix (raw filtered : List HardwareRecord) : List MatrixRow :=
  (raw.filter
      (fun entry => (filtered.map (fun r => r.name)).contains entry.name)).map
    (mkMatrixRow (allTechniques raw))

theorem mkRow_mem_techniqueMatrix (raw filtered : List HardwareRecord)
    (e : HardwareRecord) (he : e ∈ raw)
    (h : ∃ f ∈ filtered, f.name = e.name) :
    mkMatrixRow (allTechniques raw) e ∈ techniqueMatrix raw filtered := by
  unfold techniqueMatrix
  refine List.mem_map.mpr ⟨e, List.mem_filter.mpr ⟨he, ?_⟩, rfl⟩
  simpa using h

/-- **C6.** The matrix's column list is `allTechniques raw` for every row
and every filter criteria — exactly the distinct technique names occurring
anywhere in the full dataset, so invariant under filter changes — and a
cell `(t, b)` of a row has `b = true` iff the row's record lists technique
`t`. -/
theorem matrix_columns_stable (raw : List HardwareRecord)
    (c : FilterCriteria) :
    (∀ t, t ∈ allTechniques raw ↔ ∃ e ∈ raw, t ∈ e.techniques) ∧
    (∀ row ∈ techniqueMatrix raw (applyFilters c raw),
      row.cells.map Prod.fst = allTechniques raw ∧
      ∃ e ∈ raw, e.name = row.cell ∧
        ∀ t b, (t, b) ∈ row.cells → (b = true ↔ t ∈ e.techniques)) := by
  constructor
  · intro t
    simp [allTechniques, List.mem_dedup]
  · intro row hrow
    unfold techniqueMatrix at hrow
    obtain ⟨e, he, hre⟩ := List.mem_map.mp hrow
    have heraw : e ∈ raw := List.mem_of_mem_filter he
    subst hre
    refine ⟨?_, e, heraw, rfl, ?_⟩
    · simp only [mkMatrixRow, List.map_map]
      exact List.map_id _
    intro t b htb
    simp [mkMatrixRow] at htb
    obtain ⟨x, hx, rfl, hb⟩ := htb
    rw [← hb]
    simp

/-- Instantiation of `matrix_columns_stable` on a two-record dataset with
the technique filter set to `["XRD"]`. -/
theorem matrix_columns_stable_witness :
    (mkMatrixRow (allTechniques [mkRec 1 "A" ["XRD"], mkRec 2 "B" ["SANS"]])
        (mkRec 1 "A" ["XRD"])).cells.map Prod.fst =
      allTechniques [mkRec 1 "A" ["XRD"], mkRec 2 "B" ["SANS"]] ∧
    ∃ e ∈ [mkRec 1 "A" ["XRD"], mkRec 2 "B" ["SANS"]],
      e.name = (mkMatrixRow
        (allTechniques [mkRec 1 "A" ["XRD"], mkRec 2 "B" ["SANS"]])
        (mkRec 1 "A" ["XRD"])).cell ∧
      ∀ t b, (t, b) ∈ (mkMatrixRow
          (allTechniques [mkRec 1 "A" ["XRD"], mkRec 2 "B" ["SANS"]])
          (mkRec 1 "A" ["XRD"])).cells → (b = true ↔ t ∈ e.techniques) :=
  (matrix_columns_stable [mkRec 1 "A" ["XRD"], mkRec 2 "B" ["SANS"]]
      ⟨["XRD"], [], false, false, false⟩).2
    (mkMatrixRow (allTechniques [mkRec 1 "A" ["XRD"], mkRec 2 "B" ["SANS"]])
      (mkRec 1 "A" ["XRD"]))
    (mkRow_mem_techniqueMatrix [mkRec 1 "A" ["XRD"], mkRec 2 "B" ["SANS"]]
      (applyFilters ⟨["XRD"], [], false, false, false⟩
        [mkRec 1 "A" ["XRD"], mkRec 2 "B" ["SANS"]])
      (mkRec 1 "A" ["XRD"]) (by decide)
      ⟨mkRec 1 "A" ["XRD"], by decide, rfl⟩)

/-- **C10.** Matrix row membership is decided by `name`, not `id`: a raw
entry gets a row iff some filtered record bears its name; in particular a
record dropped by the filters still gets a row when a namesake survives
them. -/
theorem matrix_rows_by_name (raw : List HardwareRecord) (c : FilterCriteria)
    (e : HardwareRecord) (he : e ∈ raw) :
    (mkMatrixRow (allTechniques raw) e ∈
        techniqueMatrix raw (applyFilters c raw) ↔
      ∃ f ∈ applyFilters c raw, f.name = e.name) ∧
    (∀ f ∈ applyFilters c raw, f.name = e.name →
      mkMatrixRow (allTechniques raw) e ∈
        techniqueMatrix raw (applyFilters c raw)) := by
  constructor
  · constructor
    · intro h
      unfold techniqueMatrix at h
      obtain ⟨g, hg, hge⟩ := List.mem_map.mp h
      have hgname : g.name = e.name := by
        have := congrArg MatrixRow.cell hge
        simpa [mkMatrixRow] using this
      have hc := (List.mem_filter.mp hg).2
      simp at hc
      obtain ⟨f, hf, hfg⟩ := hc
      exact ⟨f, hf, hfg.trans hgname⟩
    · intro h
      exact mkRow_mem_techniqueMatrix raw (applyFilters c raw) e he h
  · intro f hf hfe
    exact mkRow_mem_techniqueMatrix raw (applyFilters c raw) e he ⟨f, hf, hfe⟩

/-- Two distinct records named "Dup": the filter keeps only the one
supporting "XRD", yet the other one's row still appears in the matrix. -/
theorem matrix_rows_by_name_witness :
    mkMatrixRow (allTechniques [mkRec 1 "Dup" ["SANS"], mkRec 2 "Dup" ["XRD"]])
        (mkRec 1 "Dup" ["SANS"]) ∈
      techniqueMatrix [mkRec 1 "Dup" ["SANS"], mkRec 2 "Dup" ["XRD"]]
        (applyFilters ⟨["XRD"], [], false, false, false⟩
          [mkRec 1 "Dup" ["SANS"], mkRec 2 "Dup" ["XRD"]]) :=
  (matrix_rows_by_name [mkRec 1 "Dup" ["SANS"], mkRec 2 "Dup" ["XRD"]]
      ⟨["XRD"], [], false, false, false⟩ (mkRec 1 "Dup" ["SANS"])
      (by decide)).2
    (mkRec 2 "Dup" ["XRD"]) (by decide) rfl

/-- The `TECHNIQUE_DEFINITIONS` dictionary of `app.py` lines 14-39, in its
insertion order (the order the partial-match loop iterates in). -/
def TECHNIQUE_DEFINITIONS : List (String × String) :=
  [ ("Neutron Diffraction", "Sensitive to light elements (Li, O) and isotopes. Used to determine long-range crystal structure and phase evolution."),
    ("Muon spectroscopy", "A sensitive local probe (μ+SR) used to quantify ion diffusion rates (Li+, Na+) and pathways at the atomic scale."),
    ("Muon Elemental Analysis", "Uses negative muons (μ-SR/μXES) to probe elemental composition far below the surface without destruction."),
    ("SANS", "Small Angle Neutron Scattering. Probes nanoscale structures (1–100 nm), such as porosity, SEI formation, and particle morphology."),
    ("XPDF", "X-ray Pair Distribution Function. Probes local structure in disordered/amorphous materials (e.g., electrolytes)."),
    ("XAS", "X-ray Absorption Spectroscopy. Probes oxidation states, bond lengths, and local coordination geometry."),
    ("XRS", "X-ray Raman Scattering. Provides electronic structure information using hard X-rays; suitable for bulk measurements."),
    ("Soft XPS", "X-ray Photoelectron Spectroscopy. Surface-sensitive (<10 nm) analysis of elemental composition and SEI chemistry."),
    ("AP-XPS", "Ambient Pressure XPS. Allows surface analysis at realistic pressures (solid-gas/solid-liquid interfaces), bridging the pressure gap."),
    ("NEXAFS", "Near-Edge X-ray Absorption Fine Structure. Probes electronic structure of light elements at surfaces."),
    ("Nano-focus XRF", "X-ray Fluorescence microscopy. Maps elemental distribution with nanoscale resolution."),
    ("XANES", "X-ray Absorption Near Edge Structure. Determines oxidation state and local symmetry."),
    ("Imaging", "Visualises macroscopic features like dendrites, gas evolution, and particle cracking (2D/3D)."),
    ("XRD", "X-ray Diffraction. Determines crystal structure, lattice parameters, strain, and phase evolution during cycling."),
    ("XRD-CT", "X-ray Diffraction Computed Tomography. Combines diffraction contrast with tomography to map phase distributions and strain fields in 3D."),
    ("DFXM", "Dark Field X-ray Microscopy. Allows high-resolution mapping of crystal orientation and strain within individual grains."),
    ("EXAFS", "Extended X-ray Absorption Fine Structure. Analyzes average local structure and coordination numbers in materials lacking long-range order."),
    ("RIXS", "Resonant Inelastic X-ray Scattering. Probes orbital states and charge transfer dynamics."),
    ("Neutron Total Scattering", "Characterises non-crystalline/disordered materials (e.g., liquids) using H/D isotopic substitution."),
    ("QENS", "Quasi-Elastic Neutron Scattering. Probes slow diffusional processes like Li-ion hopping."),
    ("INS", "Inelastic Neutron Scattering. Probes vibrational modes to investigate material dynamics."),
    ("Bragg Edge Imaging", "Maps crystal texture, phase distribution, and lattice strain in real space."),
    ("Ptychography", "High-resolution phase-contrast imaging for nanoscale morphology."),
    ("Neutron Reflectometry", "Measures thin films and buried interfaces.") ]

/-- Python's `s.lower()`, as the character list of the lowercased string
(character-wise lowering; the glossary keys and technique names are
ASCII-cased, where the two coincide). -/
def pyLower (s : String) : List Char :=
  s.data.map Char.toLower

/-- Python's `needle in hay` on character sequences: `needle` occurs
contiguously inside `hay`. -/
def charsContain (hay needle : List Char) : Bool :=
  hay.tails.any (fun t => needle.isPrefixOf t)

/-- `app.py` lines 173-177: `desc` starts as the sentinel
`"Definition unavailable."` and the loop replaces it with the value of the
first glossary entry whose lowercased key occurs inside the lowercased
candidate (`if key.lower() in tech.lower(): desc = val; break`). -/
def glossAnnotate (gloss : List (String × String)) (tech : String) : String :=
  match gloss with
  | [] => "Definition unavailable."
  | (k, v) :: rest =>
    if charsContain (pyLower tech) (pyLower k) then v
    else glossAnnotate rest tech

/-- **C7.** The glossary annotation returns the value of the first entry
(in definition order) whose lowercased key occurs inside the lowercased
candidate, the sentinel `"Definition unavailable."` when no key matches
(never failing), and on candidate "XRD-CT Synchrotron" the key "XRD"
(listed before "XRD-CT") wins, yielding the XRD definition. -/
theorem glossary_first_match (tech : String)
    (gloss pre post : List (String × String)) (k v : String) :
    ((∀ kv ∈ gloss, charsContain (pyLower tech) (pyLower kv.1) = false) →
      glossAnnotate gloss tech = "Definition unavailable.") ∧
    ((∀ kv ∈ pre, charsContain (pyLower tech) (pyLower kv.1) = false) →
      charsContain (pyLower tech) (pyLower k) = true →
      glossAnnotate (pre ++ (k, v) :: post) tech = v) ∧
    glossAnnotate TECHNIQUE_DEFINITIONS "XRD-CT Synchrotron" =
      "X-ray Diffraction. Determines crystal structure, lattice parameters, strain, and phase evolution during cycling." := by
  refine ⟨?_, ?_, by decide⟩
  · induction gloss with
    | nil => intro _; rfl
    | cons kv rest ih =>
      intro h
      obtain ⟨k', v'⟩ := kv
      have hk : charsContain (pyLower tech) (pyLower k') = false :=
        h (k', v') (List.mem_cons_self _ _)
      simp only [glossAnnotate, hk, Bool.false_eq_true, if_false]
      exact ih (fun kv hkv => h kv (List.mem_cons_of_mem _ hkv))
  · induction pre with
    | nil =>
      intro _ hk
      simp [glossAnnotate, hk]
    | cons kv rest ih =>
      intro h hk
      obtain ⟨k', v'⟩ := kv
      have hk' : charsContain (pyLower tech) (pyLower k') = false :=
        h (k', v') (List.mem_cons_self _ _)
      simp only [List.cons_append, glossAnnotate, hk', Bool.false_eq_true,
        if_false]
      exact ih (fun kv hkv => h kv (List.mem_cons_of_mem _ hkv)) hk

theorem glossary_first_match_witness :
    glossAnnotate ([("SANS", "sdef")] ++ ("XRD", "xdef") :: []) "XRD scan" =
      "xdef" :=
  (glossary_first_match "XRD scan" [] [("SANS", "sdef")] [] "XRD" "xdef").2.1
    (by decide) (by decide)

/-- A JSON value, as `json.load` produces it. -/
inductive Json where
  | null
  | bool (b : Bool)
  | num (n : Int)
  | str (s : String)
  | arr (elems : List Json)
  | obj (fields : List (String × Json))

/-- Python exceptions that can surface on the load path. -/
inductive PyError where
  | jsonDecodeError
  | normalizeError
  | keyError
  | typeErr
  | stopIteration
deriving Repr, DecidableEq

/-- The flattening `pd.json_normalize` applies to one record: nested
objects become dot-path columns (`specifications.operating_limits.max_temp_c`);
arrays and scalars are kept as cell values. -/
def flattenFields : String → List (String × Json) → List (String × Json)
  | _, [] => []
  | pre, (k, Json.obj inner) :: rest =>
    flattenFields (pre ++ k ++ ".") inner ++ flattenFields pre rest
  | pre, (k, v) :: rest => (pre ++ k, v) :: flattenFields pre rest

/-- A record-shaped element flattens to a row; anything else has no row. -/
def rowOfJson : Json → Option (List (String × Json))
  | Json.obj fs => some (flattenFields "" fs)
  | _ => none

/-- `pd.json_normalize(data)`: a list of objects gives one row each, a
single object gives a one-row frame, and any non-object element (or a
scalar document) makes the call raise. -/
def jsonNormalize : Json → Except PyError (List (List (String × Json)))
  | Json.obj fs => Except.ok [flattenFields "" fs]
  | Json.arr elems =>
    match elems.mapM rowOfJson with
    | some rows => Except.ok rows
    | none => Except.error PyError.normalizeError
  | _ => Except.error PyError.normalizeError

/-- How a load attempt can end: the `st.error`/`st.stop` path (only taken
for a missing file), an uncaught Python exception, or a successful return
of the frame and the raw document. -/
inductive LoadOutcome where
  | halted (msg : String)
  | raised (e : PyError)
  | loaded (df : List (List (String × Json))) (raw : Json)

/-- The source document: missing file, present but not valid JSON, or a
parsed JSON value. -/
inductive RegistryFile where
  | missing
  | invalid
  | parsed (j : Json)

/-- `load_registry` (`app.py` lines 42-51): only `FileNotFoundError` is
caught (showing the error message and stopping); a JSON parse failure
propagates as an uncaught `json.JSONDecodeError`; otherwise the document
is normalised and returned together with the raw data — with no check
that it is a list of record-shaped objects. -/
def load_registry : RegistryFile → LoadOutcome
  | RegistryFile.missing =>
    LoadOutcome.halted
      "Registry file not found. Ensure 'operando_cell_registry.json' is in the directory."
  | RegistryFile.invalid => LoadOutcome.raised PyError.jsonDecodeError
  | RegistryFile.parsed j =>
    match jsonNormalize j with
    | Except.ok df => LoadOutcome.loaded df j
    | Except.error e => LoadOutcome.raised e

/-- Column access `df[col]` on the flattened frame: the cell of each row
under that key; pandas raises `KeyError` when the frame lacks the column
(here: when a row has no such key). -/
def getCol (df : List (List (String × Json))) (col : String) :
    Except PyError (List Json) :=
  df.mapM (fun row =>
    match row.find? (fun kv => kv.1 == col) with
    | some kv => Except.ok kv.2
    | none => Except.error PyError.keyError)

/-- `app.py` line 59 run against a loaded frame: read the
`compatibility.techniques` column and flatten its per-row string lists
(iterating a non-list cell raises). -/
def computeAllTechniques (df : List (List (String × Json))) :
    Except PyError (List String) :=
  match getCol df "compatibility.techniques" with
  | Except.error e => Except.error e
  | Except.ok vals =>
    match vals.mapM (fun v =>
      match v with
      | Json.arr xs => xs.mapM (fun x =>
          match x with
          | Json.str s => some s
          | _ => none)
      | _ => none) with
    | some lists =>
      Except.ok ((lists.flatten.dedup).mergeSort (fun a b => decide (a ≤ b)))
    | none => Except.error PyError.typeErr

/-- **C8 counterexample.** A valid-JSON document that is not a list of
record-shaped objects — the single object `{"a": 1}` — is NOT rejected:
`load_registry` normalises it to a one-row frame and returns successfully
instead of failing. -/
theorem loader_accepts_non_list_doc :
    load_registry (RegistryFile.parsed (Json.obj [("a", Json.num 1)])) =
      LoadOutcome.loaded [[("a", Json.num 1)]] (Json.obj [("a", Json.num 1)]) := by
  simp [load_registry, jsonNormalize, flattenFields]

/-- **C8 (amended).** A document that is not valid JSON is fatal with no
downstream work — the parse error propagates uncaught — and a missing file
halts with the registry error message; but the loader performs no shape
validation: a valid-JSON non-list document (a single object) loads
successfully, and the failure only surfaces downstream, where computing
the technique list over the resulting frame raises a `KeyError`. -/
theorem loader_malformed_behaviour :
    load_registry RegistryFile.invalid =
      LoadOutcome.raised PyError.jsonDecodeError ∧
    load_registry RegistryFile.missing =
      LoadOutcome.halted
        "Registry file not found. Ensure 'operando_cell_registry.json' is in the directory." ∧
    computeAllTechniques [[("a", Json.num 1)]] =
      Except.error PyError.keyError :=
  ⟨rfl, rfl, rfl⟩

/-- `app.py` line 151:
`next(item for item in raw_json if item["name"] == cell_name)` — the first
raw record bearing the selected name; with no default argument, `next`
raises `StopIteration` when no record matches. -/
def lookupByName (raw : List HardwareRecord) (cell_name : String) :
    Except PyError HardwareRecord :=
  match raw.find? (fun item => item.name == cell_name) with
  | some item => Except.ok item
  | none => Except.error PyError.stopIteration

/-- **C9.** The detail lookup at a name absent from the dataset raises an
uncaught `StopIteration` — the comparison view crashes instead of
degrading to "no detail shown". -/
theorem lookup_missing_name_raises :
    lookupByName [mkRec 1 "A" ["XRD"]] "B" =
      Except.error PyError.stopIteration :=
  rfl
